import Mathlib

/-!
Verification of the smd inventory plugin (`src/smd_inventory.py`).

The embedding models the plugin data flow over a JSON value type:
`get_inventory` (component/membership merge), `populate` (emission of
inventory operations), `get_smd` (query client), the access-token loading
in `parse`, and the cache read/write logic in `parse`.  Python dictionaries
are insertion-ordered association lists, Python sets are duplicate-free
lists, and Python exceptions are explicit error values.
-/

namespace SmdInventory

/-- JSON values, as decoded by `requests.Response.json()`.  Objects keep the
insertion order of their fields, matching Python dicts. -/
inductive JValue where
  | str : String → JValue
  | num : Int → JValue
  | bool : Bool → JValue
  | null : JValue
  | arr : List JValue → JValue
  | obj : List (String × JValue) → JValue

-- Structural (Python `==`) equality on JSON values, mutually with lists
-- of values and lists of fields, so that it reduces by evaluation.
mutual
def beqJ : JValue → JValue → Bool
  | .str a, .str b => a == b
  | .num a, .num b => a == b
  | .bool a, .bool b => a == b
  | .null, .null => true
  | .arr a, .arr b => beqListJ a b
  | .obj a, .obj b => beqFieldsJ a b
  | _, _ => false
def beqListJ : List JValue → List JValue → Bool
  | [], [] => true
  | x :: xs, y :: ys => beqJ x y && beqListJ xs ys
  | _, _ => false
def beqFieldsJ : List (String × JValue) → List (String × JValue) → Bool
  | [], [] => true
  | (k, v) :: xs, (k', v') :: ys => k == k' && beqJ v v' && beqFieldsJ xs ys
  | _, _ => false
end

/-- Soundness and completeness of `beqJ` (and its list and field variants),
proved by strong induction on size. -/
def beqJ_eq_true_iff_aux : ∀ n : Nat,
    (∀ a b : JValue, sizeOf a ≤ n → (beqJ a b = true ↔ a = b)) ∧
    (∀ xs ys : List JValue, sizeOf xs ≤ n → (beqListJ xs ys = true ↔ xs = ys)) ∧
    (∀ fs gs : List (String × JValue), sizeOf fs ≤ n → (beqFieldsJ fs gs = true ↔ fs = gs)) := by
  intro n
  induction n using Nat.strong_induction_on with
  | _ n ih =>
    refine ⟨?_, ?_, ?_⟩
    · intro a b ha
      cases a <;> cases b <;> simp [beqJ]
      · case arr.arr xs ys =>
        have hlt : sizeOf xs < n := by simp at ha; omega
        exact (ih (sizeOf xs) hlt).2.1 xs ys le_rfl
      · case obj.obj fs gs =>
        have hlt : sizeOf fs < n := by simp at ha; omega
        exact (ih (sizeOf fs) hlt).2.2 fs gs le_rfl
    · intro xs ys hxs
      cases xs <;> cases ys <;> simp [beqListJ]
      case cons.cons x xs' y ys' =>
        have h1 : sizeOf x < n := by simp at hxs; omega
        have h2 : sizeOf xs' < n := by simp at hxs; omega
        rw [(ih (sizeOf x) h1).1 x y le_rfl, (ih (sizeOf xs') h2).2.1 xs' ys' le_rfl]
    · intro fs gs hfs
      cases fs <;> cases gs <;> simp [beqFieldsJ]
      case cons.cons f fs' g gs' =>
        obtain ⟨k, v⟩ := f
        obtain ⟨k', v'⟩ := g
        simp [beqFieldsJ]
        have h1 : sizeOf v < n := by simp at hfs; omega
        have h2 : sizeOf fs' < n := by simp at hfs; omega
        rw [(ih (sizeOf v) h1).1 v v' le_rfl, (ih (sizeOf fs') h2).2.2 fs' gs' le_rfl]

/-- Decidable equality on JSON values, via `beqJ`. -/
def beqJ_eq_true_iff (a b : JValue) : beqJ a b = true ↔ a = b :=
  (beqJ_eq_true_iff_aux (sizeOf a)).1 a b le_rfl

instance : DecidableEq JValue := fun a b =>
  decidable_of_iff (beqJ a b = true) (beqJ_eq_true_iff a b)

deriving instance DecidableEq for Except

/-- The Python exceptions that the pure data manipulation in the plugin can
raise: `KeyError` (missing dict key) and `TypeError` (wrong-type operation
such as indexing a string with a string, or hashing an unhashable value). -/
inductive PyErr where
  | keyError
  | typeError
deriving Repr, DecidableEq

/-- Python truthiness of a JSON value (`if x:`): empty strings, zero,
`False`, `None`, empty lists and empty dicts are falsy. -/
def truthy : JValue → Bool
  | .str s => !s.isEmpty
  | .num n => n != 0
  | .bool b => b
  | .null => false
  | .arr xs => !xs.isEmpty
  | .obj fs => !fs.isEmpty

/-- Whether a JSON value is hashable in Python (usable as a dict key or
set element): lists and dicts are not. -/
def hashable : JValue → Bool
  | .arr _ => false
  | .obj _ => false
  | _ => true

/-- First-match lookup in a string-keyed association list (successful
Python dict read). -/
def lookupStr : List (String × JValue) → String → Option JValue
  | [], _ => none
  | (k, v) :: rest, key => if k = key then some v else lookupStr rest key

/-- Python subscript `v[key]` with a string key: `KeyError` on a dict
without the key, `TypeError` on any non-dict value. -/
def objGet : JValue → String → Except PyErr JValue
  | .obj fs, key =>
    match lookupStr fs key with
    | some v => .ok v
    | none => .error .keyError
  | _, _ => .error .typeError

/-- Python iteration `for x in v`: lists yield elements, strings yield
one-character strings, dicts yield their keys; other values are not
iterable. -/
def pyIter : JValue → Except PyErr (List JValue)
  | .arr xs => .ok xs
  | .str s => .ok (s.data.map (fun c => .str (String.mk [c])))
  | .obj fs => .ok (fs.map (fun kv => .str kv.1))
  | _ => .error .typeError

/-- Write `d[k] = v` on a string-keyed dict: replace the value at the
first occurrence of the key, keeping its position, else append. -/
def strSetEntry : List (String × JValue) → String → JValue → List (String × JValue)
  | [], k, v => [(k, v)]
  | (k', v') :: rest, k, v =>
    if k' = k then (k, v) :: rest else (k', v') :: strSetEntry rest k v

/-- Python `d.update(m)` on two dicts: fold the entries of `m` into `d`
in order, the right operand winning on key collision. -/
def dictUpdate (d : List (String × JValue)) : List (String × JValue) → List (String × JValue)
  | [] => d
  | (k, v) :: rest => dictUpdate (strSetEntry d k v) rest

/-- The call `c.update(m)` at the JSON level; at the one call site in
`get_inventory` both sides are always dicts. -/
def pyUpdate : JValue → JValue → Except PyErr JValue
  | .obj fc, .obj fm => .ok (.obj (dictUpdate fc fm))
  | _, _ => .error .typeError

/-- The component table built by `get_inventory`: a Python dict keyed by
the `ID` values of the components. -/
abbrev CompDict := List (JValue × JValue)

/-- First-match lookup in the component table. -/
def lookupJ : CompDict → JValue → Option JValue
  | [], _ => none
  | (k, v) :: rest, key => if k = key then some v else lookupJ rest key

/-- Python dict read `d[k]` with an arbitrary key: hashing an unhashable
key is a `TypeError`, a missing key is a `KeyError`. -/
def pyDictGet (d : CompDict) (k : JValue) : Except PyErr JValue :=
  if hashable k then
    match lookupJ d k with
    | some v => .ok v
    | none => .error .keyError
  else .error .typeError

/-- Replace-or-append write for the component table. -/
def setEntry : CompDict → JValue → JValue → CompDict
  | [], k, v => [(k, v)]
  | (k', v') :: rest, k, v =>
    if k' = k then (k, v) :: rest else (k', v') :: setEntry rest k v

/-- Python dict write `d[k] = v` with an arbitrary key. -/
def pyDictSet (d : CompDict) (k : JValue) (v : JValue) : Except PyErr CompDict :=
  if hashable k then .ok (setEntry d k v) else .error .typeError

/-- Python `s.add(v)` on a set modelled as a duplicate-free list:
unhashable elements raise `TypeError`. -/
def setAddChecked (s : List JValue) (v : JValue) : Except PyErr (List JValue) :=
  if hashable v then .ok (if v ∈ s then s else s ++ [v]) else .error .typeError

/-- Python `s.update(xs)` on a set: add each element in order. -/
def setUnionChecked (s : List JValue) : List JValue → Except PyErr (List JValue)
  | [] => .ok s
  | v :: rest =>
    match setAddChecked s v with
    | .error e => .error e
    | .ok s' => setUnionChecked s' rest

/-- Decimal digit character, as Python renders it: `chr(48 + d)`. -/
def pyDigitChar (d : Nat) : Char := Char.ofNat (48 + d)

/-- Decimal digits of a natural number, fuel-based so that it reduces by
evaluation; with fuel at least one more than the digit count it computes
the standard decimal rendering, as Python `str` does on an `int`. -/
def natDigitsCore : Nat → Nat → List Char → List Char
  | 0, _, acc => acc
  | fuel+1, n, acc =>
    let d := pyDigitChar (n % 10)
    if n / 10 = 0 then d :: acc else natDigitsCore fuel (n / 10) (d :: acc)

/-- Python `str` of a nonnegative integer. -/
def natStr (n : Nat) : String :=
  String.mk (natDigitsCore (n + 1) n [])

/-- Python `str` of an integer. -/
def intStr : Int → String
  | .ofNat n => natStr n
  | .negSucc m => "-" ++ natStr (m + 1)

/-- Comma-and-space joining, as in Python renderings of containers. -/
def commaJoin : List String → String
  | [] => ""
  | [s] => s
  | s :: rest => s ++ ", " ++ commaJoin rest

-- Python `repr` of a JSON value (strings are quoted; escape sequences
-- inside strings are not modelled, they never occur in the verified flows).
mutual
def pyRepr : JValue → String
  | .str s => "\x27" ++ s ++ "\x27"
  | .num n => intStr n
  | .bool b => if b then "True" else "False"
  | .null => "None"
  | .arr xs => "[" ++ commaJoin (pyReprList xs) ++ "]"
  | .obj fs => "\x7b" ++ commaJoin (pyReprFields fs) ++ "\x7d"
def pyReprList : List JValue → List String
  | [] => []
  | x :: xs => pyRepr x :: pyReprList xs
def pyReprFields : List (String × JValue) → List String
  | [] => []
  | (k, v) :: fs => ("\x27" ++ k ++ "\x27: " ++ pyRepr v) :: pyReprFields fs
end

/-- Python `str` of a JSON value: identity on strings, decimal on
integers, `repr`-style on containers. -/
def pyStr : JValue → String
  | .str s => s
  | .num n => intStr n
  | .bool b => if b then "True" else "False"
  | .null => "None"
  | v => pyRepr v

/-- Python `str.zfill(w)`: left-fill with `0` up to width `w`, inserting
the padding after a leading sign character; strings already at least `w`
long are returned unchanged (never truncated). -/
def zfill (s : String) (w : Nat) : String :=
  if w ≤ s.length then s
  else
    match s.data with
    | [] => String.mk (List.replicate w '0')
    | c :: rest =>
      if c = '+' ∨ c = '-' then String.mk (c :: (List.replicate (w - s.length) '0' ++ rest))
      else String.mk (List.replicate (w - s.length) '0' ++ s.data)

/-- The host-name derivation on line 204 of `populate`:
`'nid' + str(nid).zfill(nid_length)`, applied to a numeric NID. -/
def nid_name (nid : Int) (w : Nat) : String :=
  "nid" ++ zfill (pyStr (.num nid)) w

/-- Errors escaping `get_inventory`: a raised `AnsibleParserError` with
its message, or an uncaught Python exception. -/
inductive GIErr where
  | parserError (msg : String)
  | pyExn (e : PyErr)
deriving Repr, DecidableEq

/-- The message of the `AnsibleParserError` raised when the component
response does not have the expected shape. -/
def componentFormatMsg : String :=
  "smd component response does not match expected format. Check your access token?"

/-- The message of the `AnsibleParserError` raised from the membership
merge loop, for missing fields and for unknown membership ids alike. -/
def membershipFormatMsg : String :=
  "smd membership response does not match expected format. Check your access token?"

/-- A `try/except KeyError` block that re-raises `KeyError` as
`AnsibleParserError(msg)` and lets `TypeError` escape. -/
def wrapFmt (msg : String) : PyErr → GIErr
  | .keyError => .parserError msg
  | .typeError => .pyExn .typeError

/-- The dict comprehension on line 160:
`components = (comp[ID] maps to comp, for comp in response[Components])`. -/
def indexComponents : List JValue → CompDict → Except PyErr CompDict
  | [], acc => .ok acc
  | comp :: rest, acc =>
    match objGet comp "ID" with
    | .error e => .error e
    | .ok i =>
      match pyDictSet acc i comp with
      | .error e => .error e
      | .ok acc' => indexComponents rest acc'

/-- Lines 157-160 of `get_inventory`: read the `Components` field of the
component response and index the components by `ID`. -/
def buildComponents (respC : JValue) : Except PyErr CompDict :=
  match objGet respC "Components" with
  | .error e => .error e
  | .ok comps =>
    match pyIter comps with
    | .error e => .error e
    | .ok elems => indexComponents elems []

/-- Lines 173-174: `if comp[partitionName]: partitions.add(...)`. -/
def partsStepFn (parts : List JValue) (pn : JValue) : Except PyErr (List JValue) :=
  if truthy pn then setAddChecked parts pn else pure parts

/-- Lines 175-176: `if comp[groupLabels]: groups.update(...)`. -/
def grpsStepFn (grps : List JValue) (gl : JValue) : Except PyErr (List JValue) :=
  if truthy gl then do
    let xs ← pyIter gl
    setUnionChecked grps xs
  else pure grps

/-- One iteration of the membership merge loop (lines 171-176):
`components[comp[id]].update(comp)`, then accumulate the partition and
group sets. -/
def mergeStep (comps : CompDict) (parts grps : List JValue) (m : JValue) :
    Except PyErr (CompDict × List JValue × List JValue) := do
  let i ← objGet m "id"
  let c ← pyDictGet comps i
  let c' ← pyUpdate c m
  let comps' ← pyDictSet comps i c'
  let pn ← objGet m "partitionName"
  let parts' ← partsStepFn parts pn
  let gl ← objGet m "groupLabels"
  let grps' ← grpsStepFn grps gl
  pure (comps', parts', grps')

/-- The whole membership merge loop of `get_inventory`. -/
def mergeMems (comps : CompDict) (parts grps : List JValue) :
    List JValue → Except PyErr (CompDict × List JValue × List JValue)
  | [] => .ok (comps, parts, grps)
  | m :: rest =>
    match mergeStep comps parts grps m with
    | .error e => .error e
    | .ok (c2, p2, g2) => mergeMems c2 p2 g2 rest

/-- The result of `get_inventory`: the merged component dict and the
partition and group sets. -/
structure Inv where
  components : CompDict
  partitions : List JValue
  groups : List JValue
deriving DecidableEq

/-- `InventoryModule.get_inventory` (lines 151-182), as a function of the
two decoded JSON responses: index the components by `ID`, then merge each
membership record into its component and accumulate the partition and
group sets.  `KeyError` inside either `try` block becomes an
`AnsibleParserError` with the corresponding format message. -/
def get_inventory (respC respM : JValue) : Except GIErr Inv :=
  match buildComponents respC with
  | .error e => .error (wrapFmt componentFormatMsg e)
  | .ok comps =>
    match pyIter respM with
    | .error e => .error (wrapFmt membershipFormatMsg e)
    | .ok ms =>
      match mergeMems comps [] [] ms with
      | .error e => .error (wrapFmt membershipFormatMsg e)
      | .ok (cs, ps, gs) => .ok ⟨cs, ps, gs⟩

/-- Abstract operations issued against the Ansible inventory object by
`populate`: `add_group(name)`, `add_host(name[, group])` and
`set_variable(host, key, value)`. -/
inductive InvOp where
  | addGroup (name : String)
  | addHost (name : String) (group : Option String)
  | setVariable (host : String) (key : String) (value : JValue)
deriving DecidableEq

/-- Python `text + v` for string `text`: `TypeError` unless `v` is a
string. -/
def strConcatJ (s : String) (v : JValue) : Except PyErr String :=
  match v with
  | .str t => .ok (s ++ t)
  | _ => .error .typeError

/-- The group creation loops of `populate` (lines 192-197): prepend the
given tag to each set element and add the group.  The trace of operations
performed before a raised exception is kept, matching the side effects
already done on the inventory object. -/
def addGroupsTrace (tag : String) : List JValue → List InvOp × Option PyErr
  | [] => ([], none)
  | v :: rest =>
    match strConcatJ tag v with
    | .error e => ([], some e)
    | .ok name =>
      let (ops, e) := addGroupsTrace tag rest
      (InvOp.addGroup name :: ops, e)

/-- The per-host `add_host` calls for the group labels of one component
(lines 214-217). -/
def groupAddLoop (nidName : String) : List JValue → List InvOp × Option PyErr
  | [] => ([], none)
  | g :: rest =>
    match strConcatJ "grp_" g with
    | .error e => ([], some e)
    | .ok gname =>
      let (ops, e) := groupAddLoop nidName rest
      (InvOp.addHost nidName (some gname) :: ops, e)

/-- The body of the component loop of `populate` (lines 202-220) for one
iteration value `component`.  Note that the loop iterates over the
components dict itself, so `component` is a dict KEY (an `ID` value), and
`component[NID]` is evaluated on that key. -/
def hostStep (component : JValue) (nidLen : Nat) : List InvOp × Option PyErr :=
  match objGet component "NID" with
  | .error e => ([], some e)
  | .ok nidv =>
    let nidName := "nid" ++ zfill (pyStr nidv) nidLen
    match objGet component "partitionName" with
    | .error e => ([], some e)
    | .ok pn =>
      match (if truthy pn then
              match strConcatJ "prt_" pn with
              | .error e => .error e
              | .ok pname => .ok [InvOp.addHost nidName (some pname)]
            else .ok [InvOp.addHost nidName none] : Except PyErr (List InvOp)) with
      | .error e => ([], some e)
      | .ok firstOps =>
        match objGet component "groupLabels" with
        | .error e => (firstOps, some e)
        | .ok gl =>
          match pyIter gl with
          | .error e => (firstOps, some e)
          | .ok gs =>
            let (gops, ge) := groupAddLoop nidName gs
            match ge with
            | some e => (firstOps ++ gops, some e)
            | none =>
              (firstOps ++ gops ++ [InvOp.setVariable nidName "smd_component" component], none)

/-- The component loop of `populate`: `for component in components` on a
Python dict iterates over its keys. -/
def hostLoop (nidLen : Nat) : CompDict → List InvOp × Option PyErr
  | [] => ([], none)
  | (key, _) :: rest =>
    let (ops, e) := hostStep key nidLen
    match e with
    | some err => (ops, some err)
    | none =>
      let (more, e2) := hostLoop nidLen rest
      (ops ++ more, e2)

/-- `InventoryModule.populate` (lines 185-220): create the partition and
group groups ahead of time, then add each component as a host.  Returns
the trace of inventory operations performed, and the Python exception that
aborted the run, if any. -/
def populate (components : CompDict) (partitions groups : List JValue) (nidLen : Nat) :
    List InvOp × Option PyErr :=
  let (pops, pe) := addGroupsTrace "prt_" partitions
  match pe with
  | some e => (pops, some e)
  | none =>
    let (gops, ge) := addGroupsTrace "grp_" groups
    match ge with
    | some e => (pops ++ gops, some e)
    | none =>
      let (hops, he) := hostLoop nidLen components
      (pops ++ gops ++ hops, he)

/-- The fields of the one component of the end-to-end scenario. -/
def scenarioComponentFields : List (String × JValue) :=
  [("ID", .str "x1"), ("NID", .num 7)]

/-- The fields of the one membership record of the end-to-end scenario. -/
def scenarioMemFields : List (String × JValue) :=
  [("id", .str "x1"), ("partitionName", .str "p0"), ("groupLabels", .arr [.str "g1"])]

/-- The component response of the end-to-end scenario in the spec. -/
def scenarioRespC : JValue :=
  .obj [("Components", .arr [.obj scenarioComponentFields])]

/-- The membership response of the end-to-end scenario in the spec. -/
def scenarioRespM : JValue :=
  .arr [.obj scenarioMemFields]

/-- The merged record the scenario produces: the component fields updated
with the membership fields. -/
def scenarioMergedFields : List (String × JValue) :=
  [("ID", .str "x1"), ("NID", .num 7), ("id", .str "x1"),
   ("partitionName", .str "p0"), ("groupLabels", .arr [.str "g1"])]

/-- The inventory `get_inventory` builds on the scenario responses. -/
def scenarioInv : Inv :=
  ⟨[(.str "x1", .obj scenarioMergedFields)], [.str "p0"], [.str "g1"]⟩

/-- The inventory built from the scenario component response and an empty
membership response. -/
def scenarioInvNoMems : Inv :=
  ⟨[(.str "x1", .obj scenarioComponentFields)], [], []⟩

/-- A well-formed membership record whose id matches no component of the
scenario component response. -/
def scenarioBadMemFields : List (String × JValue) :=
  [("id", .str "zz"), ("partitionName", .str ""), ("groupLabels", .arr [])]

/-- Inventory build followed by emission with `nid_length = 3`, on the
end-to-end scenario responses. -/
def scenarioRun : Except GIErr (List InvOp × Option PyErr) :=
  match get_inventory scenarioRespC scenarioRespM with
  | .error e => .error e
  | .ok inv => .ok (populate inv.components inv.partitions inv.groups 3)

/-- Transport-level failures of `requests.get` (raised before the
`try` block of `get_smd` is entered). -/
inductive TransportErr where
  | connectionError
  | timedOut
  | other (s : String)
deriving Repr, DecidableEq

/-- An HTTP response as seen by `get_smd`: status code, reason phrase and
the decoded JSON body (`none` when the body is not parseable JSON). -/
structure HttpResponse where
  status : Nat
  reason : String
  jsonBody : Option JValue
deriving DecidableEq

/-- Errors escaping `get_smd`: the raised `AnsibleParserError`, or the
raw transport exception from `requests.get`, which line 236 does not
wrap (it is outside the `try` block). -/
inductive SmdErr where
  | transportExn (e : TransportErr)
  | parserError (msg : String)
deriving Repr, DecidableEq

/-- Whether an `SmdErr` is the structured `AnsibleParserError`. -/
def smdErrIsParser : SmdErr → Bool
  | .parserError _ => true
  | .transportExn _ => false

/-- Lines 233-235 of `get_smd`: the `Authorization` header is attached
only when the stored access token is truthy. -/
def authHeaders : Option String → Option String
  | some s => if s = "" then none else some ("Bearer " ++ s)
  | none => none

/-- Lines 107-117 of `parse`: read the access token from the configured
environment variable.  Returns the stored `access_token` and whether the
non-fatal warning about a missing/empty token was displayed. -/
def loadAccessToken (envvar : String) (env : String → Option String) :
    Option String × Bool :=
  if envvar ≠ "" then
    match env envvar with
    | none => (none, true)
    | some s => (some s, s = "")
  else (none, false)

/-- The URL built on line 232: `https://` + host + `/hsm/v2/` + endpoint. -/
def smdUrl (host endpoint : String) : String :=
  "https://" ++ host ++ "/hsm/v2/" ++ endpoint

/-- The `tips` mapping on lines 241-242, read with `tips.get(status, "")`. -/
def statusTip (status : Nat) : String :=
  if status = 200 then "Please check your API endpoint"
  else if status = 401 then "Please check your access token"
  else ""

/-- The message of the `AnsibleParserError` raised on lines 243-245. -/
def queryErrorMsg (status : Nat) (reason url : String) : String :=
  "Error: " ++ natStr status ++ " " ++ reason ++ " when querying " ++ url ++ ". " ++
    statusTip status

/-- `InventoryModule.get_smd` (lines 223-245).  The transport is abstract:
given the URL and the optional `Authorization` header it either fails
(exception from `requests.get`, NOT wrapped) or yields a response; a
response body that is not parseable JSON raises the `AnsibleParserError`
built from the status, reason and URL. -/
def get_smd (accessToken : Option String)
    (transport : String → Option String → Except TransportErr HttpResponse)
    (host endpoint : String) : Except SmdErr JValue :=
  let url := smdUrl host endpoint
  match transport url (authHeaders accessToken) with
  | .error e => .error (.transportExn e)
  | .ok r =>
    match r.jsonBody with
    | some data => .ok data
    | none => .error (.parserError (queryErrorMsg r.status r.reason url))

/-- Outcome of the cache interaction in `parse` (lines 125-148): the
inventory value used, the cache contents afterwards, whether
`get_inventory` was invoked, and whether the cache was written. -/
structure CacheResult (α : Type) where
  inventory : α
  newCache : String → Option α
  queried : Bool
  wrote : Bool

/-- Lines 125-148 of `parse`: the cache read/write logic.
`userCacheSetting` is the `cache` config option, `flagCache` the `cache`
argument of `parse`, `fetchInv` the value `get_inventory` would build. -/
def parseCacheLogic {α : Type} (userCacheSetting flagCache : Bool)
    (cacheMap : String → Option α) (key : String) (fetchInv : α) : CacheResult α :=
  let attemptRead := userCacheSetting && flagCache
  let needsUpdate0 := userCacheSetting && !flagCache
  let readHit : Option α := if attemptRead then cacheMap key else none
  let needsUpdate :=
    if attemptRead then
      match cacheMap key with
      | some _ => needsUpdate0
      | none => true
    else needsUpdate0
  let queried := !attemptRead || needsUpdate
  let inventory :=
    match readHit with
    | some v => if queried then fetchInv else v
    | none => fetchInv
  let newCache :=
    if needsUpdate then (fun k => if k = key then some inventory else cacheMap k)
    else cacheMap
  ⟨inventory, newCache, queried, needsUpdate⟩

/-- Right-biased union of field mappings: every key of the merged mapping
reads as in `high` when `high` defines it, else as in `low`. -/
def unionRightBiased (merged low high : List (String × JValue)) : Prop :=
  ∀ k, lookupStr merged k = (lookupStr high k).orElse (fun _ => lookupStr low k)

/-- The partition set derived from a membership list: exactly the truthy
`partitionName` values. -/
def partitionsSpec (parts : List JValue) (ms : List JValue) : Prop :=
  ∀ v, v ∈ parts ↔ ∃ m ∈ ms, objGet m "partitionName" = .ok v ∧ truthy v = true

/-- The group set derived from a membership list: exactly the elements of
the truthy `groupLabels` collections. -/
def groupsSpec (grps : List JValue) (ms : List JValue) : Prop :=
  ∀ v, v ∈ grps ↔
    ∃ m ∈ ms, ∃ gl xs, objGet m "groupLabels" = .ok gl ∧ truthy gl = true ∧
      pyIter gl = .ok xs ∧ v ∈ xs

/-- Truthiness-guarded well-formedness of the collection bound to
`groupLabels`: when truthy it must be a list of hashable labels. -/
def glOK (gl : JValue) : Bool :=
  if truthy gl then
    match gl with
    | .arr xs => xs.all hashable
    | _ => false
  else true

/-- A membership record of the shape the data model prescribes: a dict
with a hashable `id`, a `partitionName` that is hashable when truthy, and
a `groupLabels` that is a list of hashable labels when truthy. -/
def wfMem : JValue → Bool
  | .obj fs =>
    (match lookupStr fs "id" with
     | some i => hashable i
     | none => false) &&
    (match lookupStr fs "partitionName" with
     | some pn => !truthy pn || hashable pn
     | none => false) &&
    (match lookupStr fs "groupLabels" with
     | some gl => glOK gl
     | none => false)
  | _ => false

lemma pyDigitChar_sign_free {d : Nat} (hd : d < 10) :
    pyDigitChar d ≠ '+' ∧ pyDigitChar d ≠ '-' := by
  interval_cases d <;> exact ⟨by decide, by decide⟩

lemma natDigitsCore_sign_free : ∀ fuel n acc,
    (∀ c ∈ acc, c ≠ '+' ∧ c ≠ '-') →
    ∀ c ∈ natDigitsCore fuel n acc, c ≠ '+' ∧ c ≠ '-' := by
  intro fuel
  induction fuel with
  | zero => intro n acc hacc; simpa [natDigitsCore] using hacc
  | succ f ih =>
    intro n acc hacc c hc
    have hmod : n % 10 < 10 := Nat.mod_lt _ (by decide)
    have hd := pyDigitChar_sign_free hmod
    have hcons : ∀ c' ∈ pyDigitChar (n % 10) :: acc, c' ≠ '+' ∧ c' ≠ '-' := by
      intro c' hc'
      rcases List.mem_cons.mp hc' with h | h
      · exact h ▸ hd
      · exact hacc c' h
    rw [natDigitsCore] at hc
    split at hc
    · exact hcons c hc
    · exact ih (n / 10) _ hcons c hc

lemma natDigitsCore_ne_nil_of_acc : ∀ fuel n acc, acc ≠ [] → natDigitsCore fuel n acc ≠ [] := by
  intro fuel
  induction fuel with
  | zero => intro n acc hacc; simpa [natDigitsCore] using hacc
  | succ f ih =>
    intro n acc _
    rw [natDigitsCore]
    split
    · exact List.cons_ne_nil _ _
    · exact ih (n / 10) _ (List.cons_ne_nil _ _)

lemma natDigitsCore_succ_ne_nil (f n : Nat) (acc : List Char) :
    natDigitsCore (f + 1) n acc ≠ [] := by
  rw [natDigitsCore]
  split
  · exact List.cons_ne_nil _ _
  · exact natDigitsCore_ne_nil_of_acc _ _ _ (List.cons_ne_nil _ _)

lemma natStr_ne_nil (n : Nat) : (natStr n).data ≠ [] :=
  natDigitsCore_succ_ne_nil n n []

lemma natStr_sign_free (n : Nat) : ∀ c ∈ (natStr n).data, c ≠ '+' ∧ c ≠ '-' :=
  natDigitsCore_sign_free (n + 1) n [] (by simp)

lemma zfill_of_length_le (s : String) (w : Nat) (h : w ≤ s.length) : zfill s w = s := by
  unfold zfill
  simp [h]

lemma zfill_sign_free_pad (s : String) (w : Nat)
    (hne : s.data ≠ []) (hsf : ∀ c ∈ s.data, c ≠ '+' ∧ c ≠ '-') :
    zfill s w = String.mk (List.replicate (w - s.length) '0' ++ s.data) := by
  unfold zfill
  split
  · next hle =>
    have h0 : w - s.length = 0 := by omega
    rw [h0]
    simp
  · next hgt =>
    rcases hd : s.data with _ | ⟨c, rest⟩
    · exact absurd hd hne
    · simp only [hd]
      have hc := hsf c (by rw [hd]; exact List.mem_cons_self c rest)
      rw [if_neg (by rintro (h | h) <;> [exact hc.1 h; exact hc.2 h])]

/-- C6: the derived host name is `nid` followed by the decimal NID
zero-padded to exactly the configured width whenever its decimal length is
at most that width, and the unpadded decimal form (never truncated, never
an error) when it exceeds the width; in particular `zfill` maps `7` at
width 6 to `000007`. -/
theorem c6_nid_zero_padding (n : Int) (w : Nat) (h : 0 ≤ n) :
    ((intStr n).length ≤ w →
      nid_name n w =
        "nid" ++ String.mk (List.replicate (w - (intStr n).length) '0' ++ (intStr n).data) ∧
      (nid_name n w).length = 3 + w) ∧
    (w < (intStr n).length → nid_name n w = "nid" ++ intStr n) ∧
    zfill (natStr 7) 6 = "000007" := by
  obtain ⟨m, rfl⟩ : ∃ m : Nat, n = Int.ofNat m := ⟨n.toNat, (Int.toNat_of_nonneg h).symm⟩
  have hin : intStr (Int.ofNat m) = natStr m := rfl
  refine ⟨?_, ?_, by decide⟩
  · intro hlen
    rw [hin] at hlen ⊢
    unfold nid_name
    rw [show pyStr (JValue.num (Int.ofNat m)) = natStr m from rfl,
        zfill_sign_free_pad _ _ (natStr_ne_nil m) (natStr_sign_free m)]
    refine ⟨rfl, ?_⟩
    rw [String.length_append]
    have h1 : (String.mk (List.replicate (w - (natStr m).length) '0' ++ (natStr m).data)).length
        = (List.replicate (w - (natStr m).length) '0' ++ (natStr m).data).length := rfl
    rw [h1, List.length_append, List.length_replicate]
    have h2 : (natStr m).length = (natStr m).data.length := rfl
    rw [h2] at hlen
    have h3 : (natStr m).length = (natStr m).data.length := rfl
    rw [h3]
    have h4 : String.length "nid" = 3 := rfl
    rw [h4]
    omega
  · intro hlt
    rw [hin] at hlt ⊢
    unfold nid_name
    rw [show pyStr (JValue.num (Int.ofNat m)) = natStr m from rfl,
        zfill_of_length_le _ _ (le_of_lt hlt)]

/-- Closed instantiation of `c6_nid_zero_padding` at NID 7 and width 3. -/
theorem c6_nid_zero_padding_witness :
    (0 : Int) ≤ 7 ∧
    ((intStr 7).length ≤ 3 →
      nid_name 7 3 =
        "nid" ++ String.mk (List.replicate (3 - (intStr 7).length) '0' ++ (intStr 7).data) ∧
      (nid_name 7 3).length = 3 + 3) ∧
    (3 < (intStr 7).length → nid_name 7 3 = "nid" ++ intStr 7) ∧
    zfill (natStr 7) 6 = "000007" :=
  ⟨by decide, c6_nid_zero_padding 7 3 (by decide)⟩




lemma ok_bind {ε α β : Type} (a : α) (f : α → Except ε β) :
    (Except.ok a >>= f : Except ε β) = f a := rfl

lemma exceptBind_ok_iff {ε α β : Type} {x : Except ε α} {f : α → Except ε β} {b : β} :
    (x >>= f) = .ok b ↔ ∃ a, x = .ok a ∧ f a = .ok b := by
  cases x <;> simp [Bind.bind, Except.bind]

lemma exceptPure_ok_iff {ε α : Type} {a b : α} :
    (pure a : Except ε α) = .ok b ↔ a = b := by
  simp [pure, Except.pure]

lemma objGet_ok_inv {v : JValue} {key : String} {x : JValue} (h : objGet v key = .ok x) :
    ∃ fs, v = .obj fs ∧ lookupStr fs key = some x := by
  cases v with
  | obj fs =>
    refine ⟨fs, rfl, ?_⟩
    simp only [objGet] at h
    split at h
    · rename_i v' heq
      injection h with h'
      subst h'
      exact heq
    · cases h
  | str s => simp [objGet] at h
  | num n => simp [objGet] at h
  | bool b => simp [objGet] at h
  | null => simp [objGet] at h
  | arr xs => simp [objGet] at h

lemma pyDictGet_ok_inv {d : CompDict} {k v : JValue} (h : pyDictGet d k = .ok v) :
    hashable k = true ∧ lookupJ d k = some v := by
  unfold pyDictGet at h
  split at h
  · rename_i hh
    split at h
    · rename_i v' heq
      injection h with h'
      subst h'
      exact ⟨hh, heq⟩
    · cases h
  · cases h

lemma pyDictSet_ok_inv {d : CompDict} {k v : JValue} {d' : CompDict}
    (h : pyDictSet d k v = .ok d') :
    hashable k = true ∧ d' = setEntry d k v := by
  unfold pyDictSet at h
  split at h
  · rename_i hh
    injection h with h'
    exact ⟨hh, h'.symm⟩
  · cases h

lemma pyUpdate_ok_inv {c m c' : JValue} (h : pyUpdate c m = .ok c') :
    ∃ fc fm, c = .obj fc ∧ m = .obj fm ∧ c' = .obj (dictUpdate fc fm) := by
  cases c <;> cases m <;> simp [pyUpdate] at h
  case obj.obj fc fm => exact ⟨fc, fm, rfl, rfl, h.symm⟩

lemma lookupJ_setEntry_self (d : CompDict) (k v : JValue) :
    lookupJ (setEntry d k v) k = some v := by
  induction d with
  | nil => simp [setEntry, lookupJ]
  | cons p rest ih =>
    obtain ⟨k', v'⟩ := p
    unfold setEntry
    split
    · simp [lookupJ]
    · rename_i hne
      simp only [lookupJ]
      rw [if_neg hne]
      exact ih

lemma lookupJ_setEntry_ne (d : CompDict) {k j : JValue} (v : JValue) (hne : j ≠ k) :
    lookupJ (setEntry d k v) j = lookupJ d j := by
  induction d with
  | nil =>
    simp only [setEntry, lookupJ]
    rw [if_neg (fun h => hne h.symm)]
  | cons p rest ih =>
    obtain ⟨k', v'⟩ := p
    unfold setEntry
    split
    · rename_i heq
      subst heq
      simp only [lookupJ]
      rw [if_neg (fun h => hne h.symm), if_neg (fun h => hne h.symm)]
    · simp only [lookupJ]
      by_cases hkj : k' = j
      · rw [if_pos hkj, if_pos hkj]
      · rw [if_neg hkj, if_neg hkj]
        exact ih

lemma lookupJ_some_mem {d : CompDict} {k v : JValue} (h : lookupJ d k = some v) :
    (k, v) ∈ d := by
  induction d with
  | nil => simp [lookupJ] at h
  | cons p rest ih =>
    obtain ⟨k', v'⟩ := p
    simp only [lookupJ] at h
    split at h
    · rename_i heq
      injection h with h'
      subst heq h'
      exact List.mem_cons_self _ _
    · exact List.mem_cons_of_mem _ (ih h)

lemma setEntry_mem {d : CompDict} {k v : JValue} {p : JValue × JValue}
    (h : p ∈ setEntry d k v) : p ∈ d ∨ p = (k, v) := by
  induction d with
  | nil => simp [setEntry] at h; exact Or.inr h
  | cons q rest ih =>
    obtain ⟨k', v'⟩ := q
    unfold setEntry at h
    split at h
    · rcases List.mem_cons.mp h with rfl | hm
      · exact Or.inr rfl
      · exact Or.inl (List.mem_cons_of_mem _ hm)
    · rcases List.mem_cons.mp h with rfl | hm
      · exact Or.inl (List.mem_cons_self _ _)
      · rcases ih hm with hm' | hm'
        · exact Or.inl (List.mem_cons_of_mem _ hm')
        · exact Or.inr hm'

lemma lookupStr_strSetEntry_self (d : List (String × JValue)) (k : String) (v : JValue) :
    lookupStr (strSetEntry d k v) k = some v := by
  induction d with
  | nil => simp [strSetEntry, lookupStr]
  | cons p rest ih =>
    obtain ⟨k', v'⟩ := p
    unfold strSetEntry
    split
    · simp [lookupStr]
    · rename_i hne
      simp only [lookupStr]
      rw [if_neg hne]
      exact ih

lemma lookupStr_strSetEntry_ne (d : List (String × JValue)) {k j : String} (v : JValue)
    (hne : j ≠ k) :
    lookupStr (strSetEntry d k v) j = lookupStr d j := by
  induction d with
  | nil =>
    simp only [strSetEntry, lookupStr]
    rw [if_neg (fun h => hne h.symm)]
  | cons p rest ih =>
    obtain ⟨k', v'⟩ := p
    unfold strSetEntry
    split
    · rename_i heq
      subst heq
      simp only [lookupStr]
      rw [if_neg (fun h => hne h.symm), if_neg (fun h => hne h.symm)]
    · simp only [lookupStr]
      by_cases hkj : k' = j
      · rw [if_pos hkj, if_pos hkj]
      · rw [if_neg hkj, if_neg hkj]
        exact ih

lemma lookupStr_eq_none {m : List (String × JValue)} {k : String}
    (h : k ∉ m.map Prod.fst) : lookupStr m k = none := by
  induction m with
  | nil => rfl
  | cons p rest ih =>
    obtain ⟨k', v'⟩ := p
    simp only [List.map_cons, List.mem_cons] at h
    push_neg at h
    simp only [lookupStr]
    rw [if_neg (fun heq => h.1 heq.symm)]
    exact ih h.2

lemma lookupStr_dictUpdate : ∀ (m d : List (String × JValue)),
    (m.map Prod.fst).Nodup →
    ∀ k, lookupStr (dictUpdate d m) k = (lookupStr m k).orElse (fun _ => lookupStr d k) := by
  intro m
  induction m with
  | nil =>
    intro d _ k
    simp [dictUpdate, lookupStr, Option.orElse]
  | cons p rest ih =>
    obtain ⟨k0, v0⟩ := p
    intro d hnd k
    rw [List.map_cons, List.nodup_cons] at hnd
    obtain ⟨hk0, hnd'⟩ := hnd
    show lookupStr (dictUpdate (strSetEntry d k0 v0) rest) k = _
    rw [ih (strSetEntry d k0 v0) hnd' k]
    by_cases hk : k = k0
    · subst hk
      rw [lookupStr_eq_none hk0]
      simp only [lookupStr_strSetEntry_self]
      have h1 : lookupStr ((k, v0) :: rest) k = some v0 := by simp [lookupStr]
      rw [h1]
      rfl
    · have h1 : lookupStr ((k0, v0) :: rest) k = lookupStr rest k := by
        simp only [lookupStr]
        rw [if_neg (fun h => hk h.symm)]
      rw [h1]
      simp only [lookupStr_strSetEntry_ne d v0 hk]

lemma setAddChecked_ok_inv {s : List JValue} {v : JValue} {s' : List JValue}
    (h : setAddChecked s v = .ok s') :
    (∀ w, w ∈ s' ↔ w ∈ s ∨ w = v) ∧ (s.Nodup → s'.Nodup) := by
  unfold setAddChecked at h
  split at h
  · injection h with h'
    subst h'
    constructor
    · intro w
      by_cases hv : v ∈ s
      · rw [if_pos hv]
        constructor
        · exact fun hw => Or.inl hw
        · rintro (hw | rfl)
          · exact hw
          · exact hv
      · rw [if_neg hv]
        simp [List.mem_append]
    · intro hnd
      by_cases hv : v ∈ s
      · rwa [if_pos hv]
      · rw [if_neg hv]
        simp [List.nodup_append, hnd, hv]
  · cases h

lemma setUnionChecked_ok_inv : ∀ (xs : List JValue) (s s' : List JValue),
    setUnionChecked s xs = .ok s' →
    (∀ w, w ∈ s' ↔ w ∈ s ∨ w ∈ xs) ∧ (s.Nodup → s'.Nodup) := by
  intro xs
  induction xs with
  | nil =>
    intro s s' h
    injection h with h'
    subst h'
    simp
  | cons v rest ih =>
    intro s s' h
    unfold setUnionChecked at h
    split at h
    · cases h
    · rename_i s1 heq
      obtain ⟨hm1, hn1⟩ := setAddChecked_ok_inv heq
      obtain ⟨hm2, hn2⟩ := ih s1 s' h
      refine ⟨?_, fun hnd => hn2 (hn1 hnd)⟩
      intro w
      rw [hm2 w, hm1 w]
      simp [List.mem_cons]
      tauto

lemma setAddChecked_ok_of_hashable {v : JValue} (s : List JValue) (hv : hashable v = true) :
    setAddChecked s v = .ok (if v ∈ s then s else s ++ [v]) := by
  unfold setAddChecked
  rw [if_pos hv]

lemma setUnionChecked_ok_of_hashable : ∀ (xs : List JValue) (s : List JValue),
    (∀ v ∈ xs, hashable v = true) → ∃ s', setUnionChecked s xs = .ok s' := by
  intro xs
  induction xs with
  | nil => exact fun s _ => ⟨s, rfl⟩
  | cons v rest ih =>
    intro s hall
    obtain ⟨s', hs'⟩ := ih (if v ∈ s then s else s ++ [v])
      (fun w hw => hall w (List.mem_cons_of_mem _ hw))
    refine ⟨s', ?_⟩
    unfold setUnionChecked
    rw [setAddChecked_ok_of_hashable s (hall v (List.mem_cons_self _ _))]
    exact hs'

lemma mergeStep_ok_inv {comps : CompDict} {parts grps : List JValue} {m : JValue}
    {c2 : CompDict} {p2 g2 : List JValue}
    (h : mergeStep comps parts grps m = .ok (c2, p2, g2)) :
    ∃ i c c' pn gl,
      objGet m "id" = .ok i ∧
      pyDictGet comps i = .ok c ∧
      pyUpdate c m = .ok c' ∧
      pyDictSet comps i c' = .ok c2 ∧
      objGet m "partitionName" = .ok pn ∧
      partsStepFn parts pn = .ok p2 ∧
      objGet m "groupLabels" = .ok gl ∧
      grpsStepFn grps gl = .ok g2 := by
  unfold mergeStep at h
  simp only [exceptBind_ok_iff, exceptPure_ok_iff, Prod.mk.injEq] at h
  obtain ⟨i, hi, c, hc, c', hc', cc, hcc, pn, hpn, pp, hpp, gl, hgl, gg, hgg, h1, h2, h3⟩ := h
  subst h1 h2 h3
  exact ⟨i, c, c', pn, gl, hi, hc, hc', hcc, hpn, hpp, hgl, hgg⟩

lemma partsStepFn_ok_inv {parts : List JValue} {pn : JValue} {p2 : List JValue}
    (h : partsStepFn parts pn = .ok p2) :
    (∀ w, w ∈ p2 ↔ w ∈ parts ∨ (truthy pn = true ∧ w = pn)) ∧ (parts.Nodup → p2.Nodup) := by
  unfold partsStepFn at h
  split at h
  · rename_i ht
    obtain ⟨hm, hn⟩ := setAddChecked_ok_inv h
    refine ⟨fun w => ?_, hn⟩
    rw [hm w]
    constructor
    · rintro (hw | rfl)
      · exact Or.inl hw
      · exact Or.inr ⟨ht, rfl⟩
    · rintro (hw | ⟨_, rfl⟩)
      · exact Or.inl hw
      · exact Or.inr rfl
  · rename_i hf
    rw [exceptPure_ok_iff] at h
    subst h
    refine ⟨fun w => ?_, fun hnd => hnd⟩
    constructor
    · exact fun hw => Or.inl hw
    · rintro (hw | ⟨ht, _⟩)
      · exact hw
      · exact absurd ht hf

lemma grpsStepFn_ok_inv {grps : List JValue} {gl : JValue} {g2 : List JValue}
    (h : grpsStepFn grps gl = .ok g2) :
    (∀ w, w ∈ g2 ↔ w ∈ grps ∨ (truthy gl = true ∧ ∃ xs, pyIter gl = .ok xs ∧ w ∈ xs)) ∧
    (grps.Nodup → g2.Nodup) := by
  unfold grpsStepFn at h
  split at h
  · rename_i ht
    rw [exceptBind_ok_iff] at h
    obtain ⟨xs, hxs, hu⟩ := h
    obtain ⟨hm, hn⟩ := setUnionChecked_ok_inv xs grps g2 hu
    refine ⟨fun w => ?_, hn⟩
    rw [hm w]
    constructor
    · rintro (hw | hw)
      · exact Or.inl hw
      · exact Or.inr ⟨ht, xs, hxs, hw⟩
    · rintro (hw | ⟨_, xs', hxs', hw⟩)
      · exact Or.inl hw
      · right
        rw [hxs] at hxs'
        injection hxs' with h'
        subst h'
        exact hw
  · rename_i hf
    rw [exceptPure_ok_iff] at h
    subst h
    refine ⟨fun w => ?_, fun hnd => hnd⟩
    constructor
    · exact fun hw => Or.inl hw
    · rintro (hw | ⟨ht, _⟩)
      · exact hw
      · exact absurd ht hf

lemma mergeMems_lookup_preserved : ∀ (ms : List JValue) (comps : CompDict)
    (parts grps : List JValue) (out : CompDict × List JValue × List JValue),
    mergeMems comps parts grps ms = .ok out →
    ∀ i : JValue, (∀ m ∈ ms, objGet m "id" ≠ .ok i) →
    lookupJ out.1 i = lookupJ comps i := by
  intro ms
  induction ms with
  | nil =>
    intro comps parts grps out h i _
    unfold mergeMems at h
    injection h with h'
    rw [← h']
  | cons m rest ih =>
    intro comps parts grps out h i hno
    unfold mergeMems at h
    split at h
    · cases h
    · rename_i c2 p2 g2 heq
      obtain ⟨i0, c, c', pn, gl, hi0, hget, hupd, hset, _, _, _, _⟩ := mergeStep_ok_inv heq
      have hne : i0 ≠ i := fun hcon => hno m (List.mem_cons_self _ _) (hcon ▸ hi0)
      obtain ⟨_, hc2eq⟩ := pyDictSet_ok_inv hset
      rw [ih c2 p2 g2 out h i (fun m' hm' => hno m' (List.mem_cons_of_mem _ hm')), hc2eq]
      exact lookupJ_setEntry_ne comps c' (Ne.symm hne)

lemma mergeMems_merged : ∀ (ms : List JValue) (comps : CompDict)
    (parts grps : List JValue) (out : CompDict × List JValue × List JValue),
    mergeMems comps parts grps ms = .ok out →
    (ms.map (fun r => objGet r "id")).Nodup →
    ∀ m ∈ ms, ∀ i : JValue, objGet m "id" = .ok i →
    ∀ c : JValue, lookupJ comps i = some c →
    ∃ c', pyUpdate c m = .ok c' ∧ lookupJ out.1 i = some c' := by
  intro ms
  induction ms with
  | nil =>
    intro comps parts grps out _ _ m hm
    exact absurd hm (List.not_mem_nil m)
  | cons m0 rest ih =>
    intro comps parts grps out h hids m hm i hi c hc
    rw [List.map_cons, List.nodup_cons] at hids
    obtain ⟨hid0, hids'⟩ := hids
    unfold mergeMems at h
    split at h
    · cases h
    · rename_i c2 p2 g2 heq
      obtain ⟨i0, c0, c0', pn, gl, hi0, hget, hupd, hset, _, _, _, _⟩ := mergeStep_ok_inv heq
      obtain ⟨_, hc2eq⟩ := pyDictSet_ok_inv hset
      rcases List.mem_cons.mp hm with rfl | hmr
      · have hii : i0 = i := by
          rw [hi0] at hi
          injection hi
        subst hii
        obtain ⟨_, hlk⟩ := pyDictGet_ok_inv hget
        rw [hc] at hlk
        injection hlk with hlk'
        subst hlk'
        refine ⟨c0', hupd, ?_⟩
        have hpres : lookupJ out.1 i0 = lookupJ c2 i0 := by
          apply mergeMems_lookup_preserved rest c2 p2 g2 out h
          intro m' hm' hcon
          exact hid0 (List.mem_map.mpr ⟨m', hm', by rw [hcon, hi0]⟩)
        rw [hpres, hc2eq, lookupJ_setEntry_self]
      · have hne : i0 ≠ i := by
          intro hcon
          subst hcon
          exact hid0 (List.mem_map.mpr ⟨m, hmr, by rw [hi, hi0]⟩)
        have hc2 : lookupJ c2 i = some c := by
          rw [hc2eq, lookupJ_setEntry_ne comps c0' (Ne.symm hne)]
          exact hc
        exact ih c2 p2 g2 out h hids' m hmr i hi c hc2

lemma mergeMems_sets : ∀ (ms : List JValue) (comps : CompDict) (parts grps : List JValue)
    (cs : CompDict) (ps gs : List JValue),
    mergeMems comps parts grps ms = .ok (cs, ps, gs) →
    ((∀ v, v ∈ ps ↔ v ∈ parts ∨ ∃ m ∈ ms, objGet m "partitionName" = .ok v ∧ truthy v = true) ∧
     (parts.Nodup → ps.Nodup)) ∧
    ((∀ v, v ∈ gs ↔ v ∈ grps ∨ ∃ m ∈ ms, ∃ gl xs, objGet m "groupLabels" = .ok gl ∧
        truthy gl = true ∧ pyIter gl = .ok xs ∧ v ∈ xs) ∧
     (grps.Nodup → gs.Nodup)) := by
  intro ms
  induction ms with
  | nil =>
    intro comps parts grps cs ps gs h
    unfold mergeMems at h
    injection h with h'
    cases h'
    constructor
    · exact ⟨fun v => by simp, fun hnd => hnd⟩
    · exact ⟨fun v => by simp, fun hnd => hnd⟩
  | cons m0 rest ih =>
    intro comps parts grps cs ps gs h
    unfold mergeMems at h
    split at h
    · cases h
    · rename_i c2 p2 g2 heq
      obtain ⟨i0, c0, c0', pn, gl, hi0, hget, hupd, hset, hpn, hpp, hgl, hgg⟩ :=
        mergeStep_ok_inv heq
      obtain ⟨hpmem, hpnd⟩ := partsStepFn_ok_inv hpp
      obtain ⟨hgmem, hgnd⟩ := grpsStepFn_ok_inv hgg
      obtain ⟨⟨ihp, ihpn⟩, ihg, ihgn⟩ := ih c2 p2 g2 cs ps gs h
      refine ⟨⟨fun v => ?_, fun hnd => ihpn (hpnd hnd)⟩,
              ⟨fun v => ?_, fun hnd => ihgn (hgnd hnd)⟩⟩
      · rw [ihp v]
        constructor
        · rintro (hp2 | ⟨m, hm, hov, htv⟩)
          · rcases (hpmem v).mp hp2 with hv | ⟨ht, rfl⟩
            · exact Or.inl hv
            · exact Or.inr ⟨m0, List.mem_cons_self _ _, hpn, ht⟩
          · exact Or.inr ⟨m, List.mem_cons_of_mem _ hm, hov, htv⟩
        · rintro (hv | ⟨m, hm, hov, htv⟩)
          · exact Or.inl ((hpmem v).mpr (Or.inl hv))
          · rcases List.mem_cons.mp hm with rfl | hm'
            · left
              apply (hpmem v).mpr
              right
              rw [hpn] at hov
              injection hov with h'
              exact ⟨h' ▸ htv, h'.symm⟩
            · exact Or.inr ⟨m, hm', hov, htv⟩
      · rw [ihg v]
        constructor
        · rintro (hg2 | ⟨m, hm, gl', xs', hov, htv, hxs, hv⟩)
          · rcases (hgmem v).mp hg2 with hv | ⟨ht, xs, hxs, hv⟩
            · exact Or.inl hv
            · exact Or.inr ⟨m0, List.mem_cons_self _ _, gl, xs, hgl, ht, hxs, hv⟩
          · exact Or.inr ⟨m, List.mem_cons_of_mem _ hm, gl', xs', hov, htv, hxs, hv⟩
        · rintro (hv | ⟨m, hm, gl', xs', hov, htv, hxs, hv⟩)
          · exact Or.inl ((hgmem v).mpr (Or.inl hv))
          · rcases List.mem_cons.mp hm with rfl | hm'
            · left
              apply (hgmem v).mpr
              right
              rw [hgl] at hov
              injection hov with h'
              subst h'
              exact ⟨htv, xs', hxs, hv⟩
            · exact Or.inr ⟨m, hm', gl', xs', hov, htv, hxs, hv⟩

lemma get_inventory_ok_inv {respC respM : JValue} {out : Inv}
    (h : get_inventory respC respM = .ok out) :
    ∃ comps ms, buildComponents respC = .ok comps ∧ pyIter respM = .ok ms ∧
      mergeMems comps [] [] ms = .ok (out.components, out.partitions, out.groups) := by
  unfold get_inventory at h
  split at h
  · cases h
  · rename_i comps hbc
    split at h
    · cases h
    · rename_i ms hms
      split at h
      · cases h
      · rename_i cs ps gs hmm
        injection h with h'
        subst h'
        exact ⟨comps, ms, hbc, hms, hmm⟩

/-- C2: for every component and membership record sharing an id, the merged
record the inventory build produces is the right-biased union of the
component field mapping and the membership field mapping, the membership
fields winning on key collision. -/
theorem c2_merged_record_union
    (respC respM : JValue) (comps : CompDict) (ms : List JValue) (out : Inv)
    (m i : JValue) (fc fm : List (String × JValue))
    (h0 : buildComponents respC = .ok comps)
    (h1 : pyIter respM = .ok ms)
    (h2 : get_inventory respC respM = .ok out)
    (hids : (ms.map (fun r => objGet r "id")).Nodup)
    (hm : m ∈ ms)
    (hmid : objGet m "id" = .ok i)
    (hmobj : m = .obj fm)
    (hkeys : (fm.map Prod.fst).Nodup)
    (hc : lookupJ comps i = some (.obj fc)) :
    lookupJ out.components i = some (.obj (dictUpdate fc fm)) ∧
    unionRightBiased (dictUpdate fc fm) fc fm := by
  obtain ⟨comps', ms', hbc, hms, hmm⟩ := get_inventory_ok_inv h2
  rw [h0] at hbc
  injection hbc with hbc'
  subst hbc'
  rw [h1] at hms
  injection hms with hms'
  subst hms'
  obtain ⟨c', hupd, hlk⟩ :=
    mergeMems_merged ms comps [] [] (out.components, out.partitions, out.groups)
      hmm hids m hm i hmid (.obj fc) hc
  subst hmobj
  have hcval : c' = .obj (dictUpdate fc fm) := by
    have h := hupd
    unfold pyUpdate at h
    injection h with h'
    exact h'.symm
  subst hcval
  exact ⟨hlk, fun k => lookupStr_dictUpdate fm fc hkeys k⟩

/-- Closed instantiation of `c2_merged_record_union` on the end-to-end
scenario data. -/
theorem c2_merged_record_union_witness :
    lookupJ scenarioInv.components (.str "x1") =
      some (.obj (dictUpdate scenarioComponentFields scenarioMemFields)) ∧
    unionRightBiased (dictUpdate scenarioComponentFields scenarioMemFields)
      scenarioComponentFields scenarioMemFields :=
  c2_merged_record_union scenarioRespC scenarioRespM
    [(.str "x1", .obj scenarioComponentFields)] [.obj scenarioMemFields] scenarioInv
    (.obj scenarioMemFields) (.str "x1") scenarioComponentFields scenarioMemFields
    (by decide) rfl (by decide) (by simp) (by simp) rfl rfl (by decide) (by decide)

/-- C3: a successful inventory build returns as `partitions` exactly the
set of truthy `partitionName` values of the membership records and as
`groups` the union of the truthy `groupLabels` collections, both
duplicate-free. -/
theorem c3_partition_group_sets (respC respM : JValue) (ms : List JValue) (out : Inv)
    (h1 : pyIter respM = .ok ms)
    (h2 : get_inventory respC respM = .ok out) :
    out.partitions.Nodup ∧ out.groups.Nodup ∧
    partitionsSpec out.partitions ms ∧ groupsSpec out.groups ms := by
  obtain ⟨comps, ms', hbc, hms, hmm⟩ := get_inventory_ok_inv h2
  rw [h1] at hms
  injection hms with h'
  subst h'
  obtain ⟨⟨hpm, hpn⟩, hgm, hgn⟩ :=
    mergeMems_sets ms comps [] [] out.components out.partitions out.groups hmm
  refine ⟨hpn List.nodup_nil, hgn List.nodup_nil, fun v => ?_, fun v => ?_⟩
  · rw [hpm v]
    simp
  · rw [hgm v]
    simp

/-- Closed instantiation of `c3_partition_group_sets` on the end-to-end
scenario data. -/
theorem c3_partition_group_sets_witness :
    scenarioInv.partitions.Nodup ∧ scenarioInv.groups.Nodup ∧
    partitionsSpec scenarioInv.partitions [.obj scenarioMemFields] ∧
    groupsSpec scenarioInv.groups [.obj scenarioMemFields] :=
  c3_partition_group_sets scenarioRespC scenarioRespM [.obj scenarioMemFields] scenarioInv
    rfl (by decide)

/-- C10: a component whose `ID` is referenced by no membership record comes
out of a successful inventory build unchanged, and everything in the
partition and group sets stems from some membership record, never from the
component. -/
theorem c10_untouched_component (respC respM : JValue) (comps : CompDict) (ms : List JValue)
    (out : Inv) (i c : JValue)
    (h0 : buildComponents respC = .ok comps)
    (h1 : pyIter respM = .ok ms)
    (h2 : get_inventory respC respM = .ok out)
    (hc : lookupJ comps i = some c)
    (hno : ∀ m ∈ ms, objGet m "id" ≠ .ok i) :
    lookupJ out.components i = some c ∧
    (∀ v ∈ out.partitions, ∃ m ∈ ms, objGet m "partitionName" = .ok v ∧ truthy v = true) ∧
    (∀ v ∈ out.groups, ∃ m ∈ ms, ∃ gl xs, objGet m "groupLabels" = .ok gl ∧
      truthy gl = true ∧ pyIter gl = .ok xs ∧ v ∈ xs) := by
  obtain ⟨comps', ms', hbc, hms, hmm⟩ := get_inventory_ok_inv h2
  rw [h0] at hbc
  injection hbc with h'
  subst h'
  rw [h1] at hms
  injection hms with h''
  subst h''
  obtain ⟨⟨hpm, _⟩, hgm, _⟩ :=
    mergeMems_sets ms comps [] [] out.components out.partitions out.groups hmm
  refine ⟨?_, fun v hv => ?_, fun v hv => ?_⟩
  · have hpres :=
      mergeMems_lookup_preserved ms comps [] []
        (out.components, out.partitions, out.groups) hmm i hno
    exact hpres.trans hc
  · have := (hpm v).mp hv
    simpa using this
  · have := (hgm v).mp hv
    simpa using this

/-- Closed instantiation of `c10_untouched_component`: the scenario
component response with an empty membership response. -/
theorem c10_untouched_component_witness :
    lookupJ scenarioInvNoMems.components (.str "x1") = some (.obj scenarioComponentFields) ∧
    (∀ v ∈ scenarioInvNoMems.partitions,
      ∃ m ∈ ([] : List JValue), objGet m "partitionName" = .ok v ∧ truthy v = true) ∧
    (∀ v ∈ scenarioInvNoMems.groups,
      ∃ m ∈ ([] : List JValue), ∃ gl xs, objGet m "groupLabels" = .ok gl ∧
        truthy gl = true ∧ pyIter gl = .ok xs ∧ v ∈ xs) :=
  c10_untouched_component scenarioRespC (.arr []) [(.str "x1", .obj scenarioComponentFields)]
    [] scenarioInvNoMems (.str "x1") (.obj scenarioComponentFields)
    (by decide) rfl (by decide) (by decide) (by simp)

lemma error_bind {ε α β : Type} (e : ε) (f : α → Except ε β) :
    (Except.error e >>= f : Except ε β) = .error e := rfl

lemma mergeStep_keyError {comps : CompDict} (parts grps : List JValue) {m i : JValue}
    (hi : objGet m "id" = .ok i) (hh : hashable i = true)
    (hnone : lookupJ comps i = none) :
    mergeStep comps parts grps m = .error .keyError := by
  have hget : pyDictGet comps i = .error .keyError := by
    unfold pyDictGet
    rw [if_pos hh, hnone]
  unfold mergeStep
  simp only [hi, ok_bind, hget, error_bind]

lemma glOK_truthy {gl : JValue} (h : glOK gl = true) (ht : truthy gl = true) :
    ∃ xs, gl = .arr xs ∧ ∀ v ∈ xs, hashable v = true := by
  unfold glOK at h
  rw [if_pos ht] at h
  cases gl <;> simp at h
  case arr xs => exact ⟨xs, rfl, by simpa [List.all_eq_true] using h⟩

lemma partsStepFn_total (parts : List JValue) (pn : JValue)
    (h : truthy pn = false ∨ hashable pn = true) :
    ∃ p2, partsStepFn parts pn = .ok p2 := by
  unfold partsStepFn
  by_cases ht : truthy pn = true
  · rcases h with hf | hh
    · rw [ht] at hf
      cases hf
    · rw [if_pos ht]
      exact ⟨_, setAddChecked_ok_of_hashable parts hh⟩
  · rw [if_neg ht]
    exact ⟨parts, rfl⟩

lemma grpsStepFn_total (grps : List JValue) {gl : JValue} (h : glOK gl = true) :
    ∃ g2, grpsStepFn grps gl = .ok g2 := by
  unfold grpsStepFn
  by_cases ht : truthy gl = true
  · rw [if_pos ht]
    obtain ⟨xs, rfl, hall⟩ := glOK_truthy h ht
    obtain ⟨g2, hg2⟩ := setUnionChecked_ok_of_hashable xs grps hall
    refine ⟨g2, ?_⟩
    simp only [show pyIter (.arr xs) = .ok xs from rfl, ok_bind]
    exact hg2
  · rw [if_neg ht]
    exact ⟨grps, rfl⟩

lemma mergeStep_wf (comps : CompDict) (parts grps : List JValue) (m : JValue)
    (hwf : wfMem m = true) (hvo : ∀ p ∈ comps, ∃ fs, p.2 = JValue.obj fs) :
    mergeStep comps parts grps m = .error .keyError ∨
    ∃ i c' parts' grps', objGet m "id" = .ok i ∧ lookupJ comps i ≠ none ∧
      (∃ fs, c' = JValue.obj fs) ∧
      mergeStep comps parts grps m = .ok (setEntry comps i c', parts', grps') := by
  cases m with
  | str s => simp [wfMem] at hwf
  | num n => simp [wfMem] at hwf
  | bool b => simp [wfMem] at hwf
  | null => simp [wfMem] at hwf
  | arr xs => simp [wfMem] at hwf
  | obj fs =>
    simp only [wfMem, Bool.and_eq_true] at hwf
    obtain ⟨⟨h1, h2⟩, h3⟩ := hwf
    rcases hid : lookupStr fs "id" with _ | i <;> rw [hid] at h1
    · simp at h1
    rcases hpn : lookupStr fs "partitionName" with _ | pn <;> rw [hpn] at h2
    · simp at h2
    rcases hgl : lookupStr fs "groupLabels" with _ | gl <;> rw [hgl] at h3
    · simp at h3
    have hoid : objGet (.obj fs) "id" = .ok i := by simp [objGet, hid]
    cases hlk : lookupJ comps i with
    | none => exact Or.inl (mergeStep_keyError parts grps hoid h1 hlk)
    | some c =>
      right
      obtain ⟨fc, hfc⟩ := hvo (i, c) (lookupJ_some_mem hlk)
      have hget : pyDictGet comps i = .ok c := by
        unfold pyDictGet
        rw [if_pos h1, hlk]
      have hupd : pyUpdate c (.obj fs) = .ok (.obj (dictUpdate fc fs)) := by
        rw [show c = JValue.obj fc from hfc]
        rfl
      have hset : pyDictSet comps i (.obj (dictUpdate fc fs)) =
          .ok (setEntry comps i (.obj (dictUpdate fc fs))) := by
        unfold pyDictSet
        rw [if_pos h1]
      have hopn : objGet (.obj fs) "partitionName" = .ok pn := by simp [objGet, hpn]
      have hogl : objGet (.obj fs) "groupLabels" = .ok gl := by simp [objGet, hgl]
      obtain ⟨p2, hp2⟩ := partsStepFn_total parts pn (by
        rcases (Bool.or_eq_true _ _).mp h2 with hnt | hh
        · exact Or.inl (by simpa using hnt)
        · exact Or.inr hh)
      obtain ⟨g2, hg2⟩ := grpsStepFn_total grps h3
      refine ⟨i, .obj (dictUpdate fc fs), p2, g2, hoid, by rw [hlk]; simp, ⟨_, rfl⟩, ?_⟩
      unfold mergeStep
      simp only [hoid, ok_bind, hget, hupd, hset, hopn, hp2, hogl, hg2]
      rfl

lemma mergeMems_unmatched : ∀ (ms : List JValue) (comps : CompDict) (parts grps : List JValue),
    (∀ m ∈ ms, wfMem m = true) →
    (∀ p ∈ comps, ∃ fs, p.2 = JValue.obj fs) →
    (∃ m ∈ ms, ∃ i, objGet m "id" = .ok i ∧ lookupJ comps i = none) →
    mergeMems comps parts grps ms = .error .keyError := by
  intro ms
  induction ms with
  | nil =>
    rintro comps parts grps _ _ ⟨m, hm, _⟩
    exact absurd hm (List.not_mem_nil m)
  | cons m0 rest ih =>
    rintro comps parts grps hwf hvo ⟨m, hm, i, hi, hnone⟩
    rcases List.mem_cons.mp hm with rfl | hmr
    · obtain ⟨fs, heq, hlook⟩ := objGet_ok_inv hi
      have hw := hwf _ (List.mem_cons_self _ _)
      rw [heq] at hw
      simp only [wfMem, Bool.and_eq_true] at hw
      obtain ⟨⟨h1, _⟩, _⟩ := hw
      rw [hlook] at h1
      have hstep := mergeStep_keyError parts grps hi h1 hnone
      unfold mergeMems
      rw [hstep]
    · have hw0 := hwf m0 (List.mem_cons_self _ _)
      rcases mergeStep_wf comps parts grps m0 hw0 hvo with
        hkey | ⟨i0, c', p2, g2, hi0, hsome, ⟨fs', hfs'⟩, hok⟩
      · unfold mergeMems
        rw [hkey]
      · unfold mergeMems
        rw [hok]
        apply ih
        · exact fun m' hm' => hwf m' (List.mem_cons_of_mem _ hm')
        · intro p hp
          rcases setEntry_mem hp with hp' | rfl
          · exact hvo p hp'
          · exact ⟨fs', hfs'⟩
        · refine ⟨m, hmr, i, hi, ?_⟩
          have hne : i0 ≠ i := fun hcon => hsome (hcon ▸ hnone)
          rw [lookupJ_setEntry_ne comps c' (Ne.symm hne)]
          exact hnone

lemma indexComponents_valsObj : ∀ (elems : List JValue) (acc : CompDict),
    (∀ p ∈ acc, ∃ fs, p.2 = JValue.obj fs) →
    ∀ d, indexComponents elems acc = .ok d →
    ∀ p ∈ d, ∃ fs, p.2 = JValue.obj fs := by
  intro elems
  induction elems with
  | nil =>
    intro acc hacc d h
    injection h with h'
    subst h'
    exact hacc
  | cons comp rest ih =>
    intro acc hacc d h
    unfold indexComponents at h
    split at h
    · cases h
    · rename_i i hoid
      split at h
      · cases h
      · rename_i acc' hset
        obtain ⟨fs, heq, _⟩ := objGet_ok_inv hoid
        obtain ⟨_, rfl⟩ := pyDictSet_ok_inv hset
        apply ih _ _ _ h
        intro p hp
        rcases setEntry_mem hp with hp' | rfl
        · exact hacc p hp'
        · exact ⟨fs, heq⟩

lemma buildComponents_valsObj {respC : JValue} {comps : CompDict}
    (h : buildComponents respC = .ok comps) :
    ∀ p ∈ comps, ∃ fs, p.2 = JValue.obj fs := by
  unfold buildComponents at h
  split at h
  · cases h
  · rename_i comps0 hoc
    split at h
    · cases h
    · rename_i elems hiter
      exact indexComponents_valsObj elems [] (by simp) comps h

/-- C4 (amended): a membership list of well-formed records containing one
whose id matches no component makes `get_inventory` fail with the SAME
`AnsibleParserError` (message `membershipFormatMsg`) that membership
format violations produce — not a distinct error class — and no partial
result is returned. -/
theorem c4_unmatched_id_amended (respC respM : JValue) (comps : CompDict) (ms : List JValue)
    (h0 : buildComponents respC = .ok comps)
    (h1 : pyIter respM = .ok ms)
    (hwf : ∀ m ∈ ms, wfMem m = true)
    (hbad : ∃ m ∈ ms, ∃ i, objGet m "id" = .ok i ∧ lookupJ comps i = none) :
    get_inventory respC respM = .error (.parserError membershipFormatMsg) := by
  have hvo : ∀ p ∈ comps, ∃ fs, p.2 = JValue.obj fs := buildComponents_valsObj h0
  have hmm := mergeMems_unmatched ms comps [] [] hwf hvo hbad
  simp only [get_inventory, h0, h1, hmm, wrapFmt]

/-- Closed instantiation of `c4_unmatched_id_amended`: the scenario
components with a membership whose id `zz` is unknown. -/
theorem c4_unmatched_id_amended_witness :
    get_inventory scenarioRespC (.arr [.obj scenarioBadMemFields]) =
      .error (.parserError membershipFormatMsg) :=
  c4_unmatched_id_amended scenarioRespC (.arr [.obj scenarioBadMemFields])
    [(.str "x1", .obj scenarioComponentFields)] [.obj scenarioBadMemFields]
    (by decide) rfl (by decide)
    ⟨.obj scenarioBadMemFields, by simp, .str "zz", by decide, by decide⟩

/-- C4 counterexample: an unknown membership id and a membership record
missing an expected field produce the IDENTICAL error value — the same
`AnsibleParserError` with the same message — so the failure is not a
distinct error class from the format error, contrary to the claim. -/
theorem c4_same_error_counterexample :
    get_inventory scenarioRespC (.arr [.obj scenarioBadMemFields]) =
      .error (.parserError membershipFormatMsg) ∧
    get_inventory scenarioRespC (.arr [.obj [("id", .str "x1")]]) =
      .error (.parserError membershipFormatMsg) := by decide

/-- C5: a component-query response that is a JSON object without the
`Components` key makes `get_inventory` raise the structured
`AnsibleParserError` with the component format message — neither an
unstructured crash nor an empty inventory. -/
theorem c5_missing_components_format_error (fs : List (String × JValue)) (respM : JValue)
    (h : lookupStr fs "Components" = none) :
    get_inventory (.obj fs) respM = .error (.parserError componentFormatMsg) := by
  have hbc : buildComponents (.obj fs) = .error .keyError := by
    simp only [buildComponents, objGet, h]
  simp only [get_inventory, hbc, wrapFmt]

/-- Closed instantiation of `c5_missing_components_format_error` on an
empty JSON object response. -/
theorem c5_missing_components_format_error_witness :
    get_inventory (.obj []) .null = .error (.parserError componentFormatMsg) :=
  c5_missing_components_format_error [] .null rfl

/-- C1 (code bug): on the end-to-end scenario the inventory build merges
the component and membership correctly, but `populate` then iterates the
components dict itself, so the loop variable is the key string `x1`;
`component[NID]` raises `TypeError`, no host is ever added and no host
variable is set — only the two groups get created. -/
theorem c1_end_to_end_code_bug :
    get_inventory scenarioRespC scenarioRespM = .ok scenarioInv ∧
    scenarioRun = .ok ([.addGroup "prt_p0", .addGroup "grp_g1"], some .typeError) := by
  decide

/-- C7 counterexample: a transport failure escapes `get_smd` as the raw
transport exception (raised by `requests.get` on line 236, outside the
`try` block), not as the structured `AnsibleParserError` carrying status,
reason and endpoint. -/
theorem c7_transport_unwrapped_counterexample :
    get_smd none (fun _ _ => .error .connectionError) "smd.example" "State/Components" =
      .error (.transportExn .connectionError) ∧
    smdErrIsParser (.transportExn .connectionError) = false := by
  decide

/-- C7 (amended): a response body that is not parseable JSON makes
`get_smd` fail with the `AnsibleParserError` carrying the HTTP status,
reason phrase and queried URL, with the access-token hint at status 401;
a transport failure instead propagates the raw transport exception. -/
theorem c7_query_error_amended (tok : Option String)
    (transport transportF : String → Option String → Except TransportErr HttpResponse)
    (host ep : String) (r : HttpResponse) (e : TransportErr)
    (hr : transport (smdUrl host ep) (authHeaders tok) = .ok r)
    (hbody : r.jsonBody = none)
    (hf : transportF (smdUrl host ep) (authHeaders tok) = .error e) :
    get_smd tok transport host ep =
      .error (.parserError (queryErrorMsg r.status r.reason (smdUrl host ep))) ∧
    (r.status = 401 → statusTip r.status = "Please check your access token") ∧
    get_smd tok transportF host ep = .error (.transportExn e) := by
  refine ⟨?_, ?_, ?_⟩
  · simp only [get_smd, hr, hbody]
  · intro h401
    rw [h401]
    decide
  · simp only [get_smd, hf]

/-- Closed instantiation of `c7_query_error_amended`: a 401 response with
an unparseable body, and a connection error. -/
theorem c7_query_error_amended_witness :
    get_smd none (fun _ _ => .ok ⟨401, "Unauthorized", none⟩) "smd.example" "State/Components" =
      .error (.parserError
        (queryErrorMsg 401 "Unauthorized" (smdUrl "smd.example" "State/Components"))) ∧
    ((401 : Nat) = 401 → statusTip 401 = "Please check your access token") ∧
    get_smd none (fun _ _ => .error .connectionError) "smd.example" "State/Components" =
      .error (.transportExn .connectionError) :=
  c7_query_error_amended none (fun _ _ => .ok ⟨401, "Unauthorized", none⟩)
    (fun _ _ => .error .connectionError) "smd.example" "State/Components"
    ⟨401, "Unauthorized", none⟩ .connectionError rfl rfl rfl

/-- C8: a configured access-token environment variable that is unset or
empty produces the non-fatal warning, the stored token stays falsy, and
the queries behave exactly as with no token at all: no `Authorization`
header is attached. -/
theorem c8_missing_token_warning (envvar : String) (env : String → Option String)
    (transport : String → Option String → Except TransportErr HttpResponse)
    (host ep : String)
    (h1 : envvar ≠ "")
    (h2 : env envvar = none ∨ env envvar = some "") :
    (loadAccessToken envvar env).2 = true ∧
    authHeaders (loadAccessToken envvar env).1 = none ∧
    get_smd (loadAccessToken envvar env).1 transport host ep =
      get_smd none transport host ep := by
  have htok : authHeaders (loadAccessToken envvar env).1 = none ∧
      (loadAccessToken envvar env).2 = true := by
    unfold loadAccessToken
    rw [if_pos h1]
    rcases h2 with h | h
    · rw [h]
      exact ⟨rfl, rfl⟩
    · rw [h]
      exact ⟨rfl, rfl⟩
  refine ⟨htok.2, htok.1, ?_⟩
  unfold get_smd
  rw [show authHeaders (loadAccessToken envvar env).1 = authHeaders none from htok.1]

/-- Closed instantiation of `c8_missing_token_warning`: the default
`ACCESS_TOKEN` variable, unset in the environment. -/
theorem c8_missing_token_warning_witness :
    (loadAccessToken "ACCESS_TOKEN" (fun _ => none)).2 = true ∧
    authHeaders (loadAccessToken "ACCESS_TOKEN" (fun _ => none)).1 = none ∧
    get_smd (loadAccessToken "ACCESS_TOKEN" (fun _ => none)).1
      (fun _ _ => .error .connectionError) "smd.example" "memberships" =
      get_smd none (fun _ _ => .error .connectionError) "smd.example" "memberships" :=
  c8_missing_token_warning "ACCESS_TOKEN" (fun _ => none)
    (fun _ _ => .error .connectionError) "smd.example" "memberships"
    (by decide) (Or.inl rfl)

/-- C9: with caching enabled, a fresh cache flag and a present entry the
inventory is served from the cache with no query, no write, and the cache
unchanged; the cache is written exactly when the entry is absent or the
flag demands a refresh, and then the freshly built inventory is both used
and stored under the key. -/
theorem c9_cache_behavior {α : Type} (flag : Bool) (cache : String → Option α)
    (key : String) (fresh : α) :
    ((parseCacheLogic true flag cache key fresh).wrote = true ↔
      (cache key = none ∨ flag = false)) ∧
    (flag = true → (cache key).isSome = true →
      (parseCacheLogic true flag cache key fresh).queried = false ∧
      some (parseCacheLogic true flag cache key fresh).inventory = cache key ∧
      (parseCacheLogic true flag cache key fresh).wrote = false ∧
      (parseCacheLogic true flag cache key fresh).newCache = cache) ∧
    ((parseCacheLogic true flag cache key fresh).wrote = true →
      (parseCacheLogic true flag cache key fresh).queried = true ∧
      (parseCacheLogic true flag cache key fresh).inventory = fresh ∧
      (parseCacheLogic true flag cache key fresh).newCache key = some fresh) ∧
    ((parseCacheLogic true flag cache key fresh).wrote = false →
      (parseCacheLogic true flag cache key fresh).newCache = cache) := by
  cases flag with
  | false => simp [parseCacheLogic]
  | true =>
    cases hck : cache key with
    | none => simp [parseCacheLogic, hck]
    | some v => simp [parseCacheLogic, hck]

/-- Closed instantiation of `c9_cache_behavior` at a one-entry cache. -/
theorem c9_cache_behavior_witness :
    ((parseCacheLogic true true (fun k => if k = "cfg" then some 1 else none) "cfg" 2).wrote
        = true ↔
      ((fun k => if k = "cfg" then some 1 else none) "cfg" = none ∨ true = false)) ∧
    (true = true → ((fun k => if k = "cfg" then some 1 else none) "cfg").isSome = true →
      (parseCacheLogic true true (fun k => if k = "cfg" then some 1 else none) "cfg" 2).queried
          = false ∧
      some (parseCacheLogic true true
          (fun k => if k = "cfg" then some 1 else none) "cfg" 2).inventory =
        (fun k => if k = "cfg" then some 1 else none) "cfg" ∧
      (parseCacheLogic true true (fun k => if k = "cfg" then some 1 else none) "cfg" 2).wrote
          = false ∧
      (parseCacheLogic true true (fun k => if k = "cfg" then some 1 else none) "cfg" 2).newCache
          = (fun k => if k = "cfg" then some 1 else none)) ∧
    ((parseCacheLogic true true (fun k => if k = "cfg" then some 1 else none) "cfg" 2).wrote
        = true →
      (parseCacheLogic true true (fun k => if k = "cfg" then some 1 else none) "cfg" 2).queried
          = true ∧
      (parseCacheLogic true true (fun k => if k = "cfg" then some 1 else none) "cfg" 2).inventory
          = 2 ∧
      (parseCacheLogic true true (fun k => if k = "cfg" then some 1 else none) "cfg" 2).newCache
          "cfg" = some 2) ∧
    ((parseCacheLogic true true (fun k => if k = "cfg" then some 1 else none) "cfg" 2).wrote
        = false →
      (parseCacheLogic true true (fun k => if k = "cfg" then some 1 else none) "cfg" 2).newCache
          = (fun k => if k = "cfg" then some 1 else none)) :=
  c9_cache_behavior true (fun k => if k = "cfg" then some 1 else none) "cfg" 2

end SmdInventory
